import Mathlib

/-!
Verification of the Rick-and-Morty aggregation service (src/index.ts) against
its specification.  The TypeScript source is shallowly embedded: each handler
and helper becomes a Lean function over explicit inputs; the upstream HTTP API
is modelled as a function from request URL to a `FetchOutcome` describing what
the single `fetch` call observed (transport failure, or a status code plus a
parsed-or-malformed JSON body).  JavaScript numbers that the code only ever
uses as integers (`id`, parsed query parameters, counts) are modelled as
`Int`/`Nat`; `Number.parseInt` is modelled exactly on its prefix-parsing
semantics.  `Array.prototype.sort` (ES2019) is a stable sort by the comparator
`(a, b) => b.episodes - a.episodes`; a stable sort by a total preorder has a
unique output, so it is modelled by `List.insertionSort` with the relation
`pairGE`, which is stable and total.
-/

/-- Data model: `interface Character` from src/index.ts (lines 9-15). -/
structure Character where
  id : Int
  name : String
  type : String
  url : String
  episode : List String
deriving DecidableEq

/-- Data model: `interface Location` from src/index.ts (lines 17-22). -/
structure Location where
  id : Int
  name : String
  type : String
  url : String
deriving DecidableEq

/-- Data model: `interface Episode` from src/index.ts (lines 24-28). -/
structure Episode where
  name : String
  type : String
  url : String
deriving DecidableEq

/-- Data model: `interface SearchResult` from src/index.ts (lines 30-34); the
`type` field ranges over "character", "location", "episode". -/
structure SearchResult where
  name : String
  type : String
  url : String
deriving DecidableEq

/-- The `{name, url}` projection stored in each side of a `CharacterPair`. -/
structure PairCharacter where
  name : String
  url : String
deriving DecidableEq

/-- Data model: `interface CharacterPair` from src/index.ts (lines 36-46). -/
structure CharacterPair where
  character1 : PairCharacter
  character2 : PairCharacter
  episodes : Nat
deriving DecidableEq

/-- Page envelope metadata: the `info` object of `interface ApiResponse`
(src/index.ts lines 48-56), carrying the upstream pagination cursor. -/
structure PageInfo where
  count : Nat
  pages : Nat
  next : Option String
  prev : Option String
deriving DecidableEq

/-- Data model: `interface ApiResponse<T>` from src/index.ts (lines 48-56).
`results` is `Option`al because the code guards with `data.results || []`. -/
structure ApiResponse (α : Type) where
  info : PageInfo
  results : Option (List α)
deriving DecidableEq

deriving instance DecidableEq for Except

/-- What one `fetch` call observes: a transport/decoding failure (the promise
rejects, or `response.json()` throws), or an HTTP response with a status code
and a body that either parsed to an `ApiResponse` or was malformed. -/
inductive FetchOutcome (α : Type) where
  | transportError (msg : String)
  | response (status : Nat) (body : Except String (ApiResponse α))
deriving DecidableEq

/-- Embedding of `response.ok`: status in the range 200-299. -/
def statusOk (status : Nat) : Bool := decide (200 ≤ status ∧ status < 300)

def BASE_URL : String := "https://rickandmortyapi.com/api"

/-- Embedding of `searchResource` (src/index.ts lines 58-76).  Its own
`try/catch` turns every failure - transport error, 404, any other non-success
status (the `throw`), or a malformed body - into the empty list. -/
def searchResource {α : Type} (outcome : FetchOutcome α) : List α :=
  match outcome with
  | .transportError _ => []
  | .response status body =>
    if status = 404 then []
    else if !statusOk status then []
    else match body with
      | .error _ => []
      | .ok data => data.results.getD []

/-- The one URL `getAllCharacters` ever requests. -/
def characterPageUrl : String := BASE_URL ++ "/character/"

/-- Embedding of `getAllCharacters` (src/index.ts lines 78-96).  The upstream
is a map from request URL to outcome; the code performs exactly one fetch of
`characterPageUrl` and never reads `info.next`.  Like `searchResource`, its
`try/catch` converts every failure into the empty list. -/
def getAllCharacters (upstream : String → FetchOutcome Character) : List Character :=
  match upstream characterPageUrl with
  | .transportError _ => []
  | .response status body =>
    if status = 404 then []
    else if !statusOk status then []
    else match body with
      | .error _ => []
      | .ok data => data.results.getD []

/-- The `{id, name, url, episodes}` records built into `charactersWithEpisodes`
(src/index.ts lines 204-213). -/
structure CharacterLite where
  id : Int
  name : String
  url : String
  episodes : List String
deriving DecidableEq

/-- Embedding of the `charactersWithEpisodes` projection loop
(src/index.ts lines 206-213). -/
def charactersWithEpisodes (allCharacters : List Character) : List CharacterLite :=
  allCharacters.map (fun c => { id := c.id, name := c.name, url := c.url, episodes := c.episode })

/-- Embedding of `commonEpisodes` (src/index.ts lines 220-221):
`character1.episodes.filter(ep => characterBEpisodeSet.has(ep))`. -/
def commonEpisodes (c1 c2 : CharacterLite) : List String :=
  c1.episodes.filter (fun ep => c2.episodes.contains ep)

/-- The `CharacterPair` record pushed for one qualifying `(character1,
character2)` combination (src/index.ts lines 224-234). -/
def mkPair (c1 c2 : CharacterLite) : CharacterPair :=
  { character1 := { name := c1.name, url := c1.url }
  , character2 := { name := c2.name, url := c2.url }
  , episodes := (commonEpisodes c1 c2).length }

/-- Ghost version of the nested pair-generation loops (src/index.ts lines
217-238) that returns the source characters of each emitted pair, in emission
order, instead of the projected records. -/
def genPairsSrc (chars : List CharacterLite) : List (CharacterLite × CharacterLite) :=
  chars.flatMap (fun c1 =>
    chars.filterMap (fun c2 =>
      if c1.id < c2.id then
        if 0 < (commonEpisodes c1 c2).length then some (c1, c2) else none
      else none))

/-- Embedding of the nested `forEach` pair-generation loops building
`charactersPairs` (src/index.ts lines 215-238). -/
def charactersPairs (chars : List CharacterLite) : List CharacterPair :=
  chars.flatMap (fun c1 =>
    chars.filterMap (fun c2 =>
      if c1.id < c2.id then
        if 0 < (commonEpisodes c1 c2).length then some (mkPair c1 c2) else none
      else none))

/-- Ordering used by `charactersPairs.sort((a, b) => b.episodes - a.episodes)`:
`a` may come before `b` when `b.episodes ≤ a.episodes` (descending). -/
def pairGE (a b : CharacterPair) : Prop := b.episodes ≤ a.episodes

instance : DecidableRel pairGE := fun a b => inferInstanceAs (Decidable (b.episodes ≤ a.episodes))

instance : IsTotal CharacterPair pairGE := ⟨fun a b => Nat.le_total b.episodes a.episodes⟩

instance : IsTrans CharacterPair pairGE := ⟨fun _ _ _ h1 h2 => Nat.le_trans h2 h1⟩

/-- Embedding of `charactersPairs.sort((a, b) => b.episodes - a.episodes)`
(src/index.ts line 240).  ES2019 `Array.prototype.sort` is a stable sort, and
a stable sort by a total preorder comparator has exactly one possible output,
so the stable `insertionSort` computes it. -/
def sortPairs (l : List CharacterPair) : List CharacterPair :=
  List.insertionSort pairGE l

/-- Embedding of `Number.parseInt(s, 10)`: the longest digit run at the head. -/
def leadingDigits : List Char → List Char
  | [] => []
  | c :: cs => if c.isDigit then c :: leadingDigits cs else []

/-- Numeric value of a digit run. -/
def digitsVal (ds : List Char) : Nat :=
  ds.foldl (fun n c => 10 * n + (c.toNat - 48)) 0

/-- Characters `parseInt` skips before the number (JS WhiteSpace/LineTerminator,
restricted to the common ASCII ones). -/
def jsWhitespace (c : Char) : Bool :=
  c = ' ' || c = '\t' || c = '\n' || c = '\r'

/-- Embedding of `Number.parseInt(s, 10)`: skip leading whitespace, read an
optional sign, then the longest (possibly empty) digit run; no digits means
`NaN`, modelled as `none`.  Trailing garbage is ignored - `parseInt("3abc")`
is `3`.  (Exact integers stand in for IEEE doubles; inputs long enough to
overflow a double are outside the model.) -/
def parseIntJS (s : String) : Option Int :=
  match s.data.dropWhile jsWhitespace with
  | '-' :: rest =>
      let ds := leadingDigits rest
      if ds.isEmpty then none else some (-(digitsVal ds : Int))
  | '+' :: rest =>
      let ds := leadingDigits rest
      if ds.isEmpty then none else some ((digitsVal ds : Int))
  | other =>
      let ds := leadingDigits other
      if ds.isEmpty then none else some ((digitsVal ds : Int))

def minErrMsg : String := "Query parameter 'min' must be a non-negative integer"

def maxErrMsg : String := "Query parameter 'max' must be a non-negative integer"

def limitErrMsg : String := "Query parameter 'limit' must be a positive integer"

def termErrMsg : String := "Missing 'term' query parameter"

/-- Embedding of the `min` validation block (src/index.ts lines 170, 174-181):
absent means the default `0`; a present value is `parseInt`ed and rejected when
`NaN` (`!Number.isFinite`) or negative. -/
def validateMin : Option String → Except String Int
  | none => .ok 0
  | some s =>
    match parseIntJS s with
    | none => .error minErrMsg
    | some v => if v < 0 then .error minErrMsg else .ok v

/-- Embedding of the `max` validation block (src/index.ts lines 171, 183-190):
absent means the default `Infinity`, modelled as `none`. -/
def validateMax : Option String → Except String (Option Int)
  | none => .ok none
  | some s =>
    match parseIntJS s with
    | none => .error maxErrMsg
    | some v => if v < 0 then .error maxErrMsg else .ok (some v)

/-- Embedding of the `/top-pairs` `limit` validation block (src/index.ts lines
172, 192-199): absent means the default `20`; rejected when `NaN` or `≤ 0`. -/
def validateLimit : Option String → Except String Int
  | none => .ok 20
  | some s =>
    match parseIntJS s with
    | none => .error limitErrMsg
    | some v => if v ≤ 0 then .error limitErrMsg else .ok v

/-- Embedding of the `/search` `limit` validation block (src/index.ts lines
109-117): absent means `null` (no truncation), modelled as `none`. -/
def validateSearchLimit : Option String → Except String (Option Int)
  | none => .ok none
  | some s =>
    match parseIntJS s with
    | none => .error limitErrMsg
    | some v => if v ≤ 0 then .error limitErrMsg else .ok (some v)

/-- Embedding of the filter predicate `pair.episodes >= minEpisodes &&
pair.episodes <= maxEpisodes` (src/index.ts line 241); `maxE = none` is the
default `Infinity`, which every count satisfies. -/
def inRange (minE : Int) (maxE : Option Int) (e : Nat) : Bool :=
  decide (minE ≤ (e : Int)) &&
    match maxE with
    | none => true
    | some m => decide ((e : Int) ≤ m)

/-- Possible responses of the `/top-pairs` handler. -/
inductive TopPairsResponse where
  | badRequest (msg : String)
  | ok (pairs : List CharacterPair)
  | serverError
deriving DecidableEq

/-- Embedding of the `/top-pairs` request handler (src/index.ts lines 165-252):
validate `min`, `max`, `limit` in that order (each failure answers 400 at
once, before the upstream fetch), then load the characters, generate, sort,
filter and truncate the pairs. -/
def topPairsHandler (minRaw maxRaw limitRaw : Option String)
    (upstream : String → FetchOutcome Character) : TopPairsResponse :=
  match validateMin minRaw with
  | .error msg => .badRequest msg
  | .ok minEpisodes =>
    match validateMax maxRaw with
    | .error msg => .badRequest msg
    | .ok maxEpisodes =>
      match validateLimit limitRaw with
      | .error msg => .badRequest msg
      | .ok limit =>
        let allCharacters := getAllCharacters upstream
        let cwe := charactersWithEpisodes allCharacters
        let pairs := charactersPairs cwe
        let sorted := sortPairs pairs
        let filtered := sorted.filter (fun pair => inRange minEpisodes maxEpisodes pair.episodes)
        let limitedResults := filtered.take limit.toNat
        .ok limitedResults

/-- Possible responses of the `/search` handler. -/
inductive SearchResponse where
  | badRequest (msg : String)
  | ok (results : List SearchResult)
  | serverError
deriving DecidableEq

/-- Embedding of the `/search` request handler (src/index.ts lines 99-162):
reject a missing or empty `term` (`if (!searchTerm)`), validate `limit`, then
merge the three collection searches in the fixed order character, location,
episode, tagging each hit, and truncate only when a limit was given
(`limit ? results.slice(0, limit) : results`). -/
def searchHandler (term : Option String) (limitRaw : Option String)
    (charOutcome : FetchOutcome Character) (locOutcome : FetchOutcome Location)
    (epOutcome : FetchOutcome Episode) : SearchResponse :=
  match term with
  | none => .badRequest termErrMsg
  | some t =>
    if t = "" then .badRequest termErrMsg
    else
      match validateSearchLimit limitRaw with
      | .error msg => .badRequest msg
      | .ok limit =>
        let characters := searchResource charOutcome
        let locations := searchResource locOutcome
        let episodes := searchResource epOutcome
        let results :=
          characters.map (fun c => SearchResult.mk c.name "character" c.url)
          ++ locations.map (fun l => SearchResult.mk l.name "location" l.url)
          ++ episodes.map (fun e => SearchResult.mk e.name "episode" e.url)
        match limit with
        | some n => .ok (results.take n.toNat)
        | none => .ok results

example : parseIntJS "3abc" = some 3 := by decide
example : parseIntJS "  -42xyz" = some (-42) := by decide
example : parseIntJS "abc" = none := by decide
example : parseIntJS "3.7" = some 3 := by decide

/-! Concrete fixtures used by the closed theorems below. -/

/-- A first-page character (as the upstream would deliver on page 1). -/
def rickC : Character :=
  { id := 1, name := "Rick Sanchez", type := "Human", url := "u1", episode := ["e1"] }

/-- A second-page character: reachable only through the `info.next` cursor. -/
def mortyC : Character :=
  { id := 2, name := "Morty Smith", type := "Human", url := "u2", episode := ["e1"] }

def page2Url : String := BASE_URL ++ "/character/?page=2"

/-- A two-page upstream character collection: page 1 holds `rickC` and points
to page 2 through `info.next`; page 2 holds `mortyC`. -/
def pagedUpstream : String → FetchOutcome Character := fun url =>
  if url = characterPageUrl then
    .response 200 (.ok
      { info := { count := 2, pages := 2, next := some page2Url, prev := none }
      , results := some [rickC] })
  else if url = page2Url then
    .response 200 (.ok
      { info := { count := 2, pages := 2, next := none, prev := some characterPageUrl }
      , results := some [mortyC] })
  else
    .response 404 (.error "not found")

/-- An upstream whose every fetch answers HTTP 500. -/
def failingUpstream : String → FetchOutcome Character := fun _ =>
  .response 500 (.error "Internal Server Error")

/-- An upstream whose every fetch fails at the transport level. -/
def downUpstream : String → FetchOutcome Character := fun _ =>
  .transportError "fetch failed"

/-- An upstream whose every fetch answers HTTP 404. -/
def notFoundUpstream : String → FetchOutcome Character := fun _ =>
  .response 404 (.error "not found")

/-- The claim C1 as the spec states it, for comparison with the code:
a loader that starts at the first page and follows `info.next` until no next
cursor remains, concatenating the page items.  (Fuel = one plus the number of
pages still allowed, so the recursion is structural.) -/
def loadAllSpecFuel (upstream : String → FetchOutcome Character) : Nat → String → List Character
  | 0, _ => []
  | fuel + 1, url =>
    match upstream url with
    | .transportError _ => []
    | .response status body =>
      if status = 404 then []
      else if !statusOk status then []
      else match body with
        | .error _ => []
        | .ok data =>
          data.results.getD [] ++
            match data.info.next with
            | some nextUrl => loadAllSpecFuel upstream fuel nextUrl
            | none => []

/-- Specification-side loader: follow `next` cursors from the first page. -/
def loadAllSpec (upstream : String → FetchOutcome Character) (maxPages : Nat) : List Character :=
  loadAllSpecFuel upstream maxPages characterPageUrl

/-- C1: the code's `getAllCharacters` fetches only the first page and ignores
the `info.next` cursor: on a two-page collection it returns just the page-1
characters, while a loader that follows the cursor (and the claim) returns
every character across all pages.  `mortyC` is missing from the result. -/
theorem getAllCharacters_ignores_next_cursor :
    getAllCharacters pagedUpstream = [rickC]
    ∧ mortyC ∉ getAllCharacters pagedUpstream
    ∧ loadAllSpec pagedUpstream 2 = [rickC, mortyC] := by
  refine ⟨by decide, by decide, by decide⟩

/-- C2: every upstream failure during the character load is swallowed by the
`catch` block of `getAllCharacters` (which logs and returns `[]`), so
`/top-pairs` answers 200 with an empty pair list instead of propagating the
error and answering 500 - both for a non-success HTTP status and for a
transport failure. -/
theorem topPairs_upstream_failure_swallowed :
    getAllCharacters failingUpstream = []
    ∧ topPairsHandler none none none failingUpstream = .ok []
    ∧ topPairsHandler none none none failingUpstream ≠ .serverError
    ∧ getAllCharacters downUpstream = []
    ∧ topPairsHandler none none none downUpstream = .ok [] := by
  refine ⟨by decide, by decide, by decide, by decide, by decide⟩

/-- Cardinality of the set intersection of two characters' episode-reference
sets: the distinct episode references common to both. -/
def sharedEpisodeSetCard (c1 c2 : CharacterLite) : Nat :=
  ((c1.episodes.filter (fun e => c2.episodes.contains e)).dedup).length

/-- A character whose episode list repeats the same reference. -/
def dupA : CharacterLite := { id := 1, name := "A", url := "uA", episodes := ["e1", "e1"] }

def dupB : CharacterLite := { id := 2, name := "B", url := "uB", episodes := ["e1"] }

/-- Duplicate-free characters sharing episode "e2" (spec Scenario D's A, B). -/
def ndA : CharacterLite := { id := 1, name := "A", url := "uA", episodes := ["e1", "e2"] }

def ndB : CharacterLite := { id := 2, name := "B", url := "uB", episodes := ["e2", "e3"] }

/-- Helper: the emitted pair records are exactly the projections of the ghost
source pairs, in the same order. -/
theorem charactersPairs_eq_map_genPairsSrc (chars : List CharacterLite) :
    charactersPairs chars = (genPairsSrc chars).map (fun q => mkPair q.1 q.2) := by
  unfold charactersPairs genPairsSrc
  rw [List.map_flatMap]
  refine List.flatMap_congr ?_
  intro c1 _
  rw [List.map_filterMap]
  refine List.filterMap_congr ?_
  intro c2 _
  by_cases h1 : c1.id < c2.id <;> by_cases h2 : 0 < (commonEpisodes c1 c2).length <;>
    simp [h1, h2]

/-- C3 counterexample: with a duplicated episode reference in `character1`'s
list, the emitted count is the number of (multiplicity-counted) entries of
`character1.episodes` found in `character2`'s set - here 2 - while the true
set-intersection cardinality is 1.  The claim's equality fails on inputs with
duplicate references. -/
theorem pair_count_duplicates_counterexample :
    charactersPairs [dupA, dupB] =
      [{ character1 := { name := "A", url := "uA" }
       , character2 := { name := "B", url := "uB" }
       , episodes := 2 }]
    ∧ sharedEpisodeSetCard dupA dupB = 1 := by
  refine ⟨by decide, by decide⟩

/-- C3 amended: every emitted pair has `episodes ≥ 1`; the emitted count is the
length of `commonEpisodes` (entries of `character1`'s list, with multiplicity,
that lie in `character2`'s set), and this equals the set-intersection
cardinality whenever `character1`'s episode list has no duplicates; the emitted
records are the projections of the ghost source pairs. -/
theorem pair_count_amended (chars : List CharacterLite) :
    (∀ p ∈ charactersPairs chars, 1 ≤ p.episodes)
    ∧ (∀ q ∈ genPairsSrc chars, q.1.episodes.Nodup →
        (mkPair q.1 q.2).episodes = sharedEpisodeSetCard q.1 q.2)
    ∧ charactersPairs chars = (genPairsSrc chars).map (fun q => mkPair q.1 q.2) := by
  refine ⟨?_, ?_, charactersPairs_eq_map_genPairsSrc chars⟩
  · intro p hp
    simp only [charactersPairs, List.mem_flatMap, List.mem_filterMap] at hp
    obtain ⟨c1, -, c2, -, hif⟩ := hp
    by_cases h1 : c1.id < c2.id
    · simp only [h1, if_true] at hif
      by_cases h2 : 0 < (commonEpisodes c1 c2).length
      · simp only [h2, if_true, Option.some.injEq] at hif
        subst hif
        simpa [mkPair] using h2
      · simp [h2] at hif
    · simp [h1] at hif
  · intro q _ hnd
    have hfil : (commonEpisodes q.1 q.2).Nodup := List.Nodup.filter _ hnd
    have hd : (commonEpisodes q.1 q.2).dedup = commonEpisodes q.1 q.2 :=
      List.dedup_eq_self.mpr hfil
    show (commonEpisodes q.1 q.2).length = ((commonEpisodes q.1 q.2).dedup).length
    rw [hd]

/-- Witness for `pair_count_amended` at concrete inputs: the single pair
generated from `[dupA, dupB]` has a positive count, and on a duplicate-free
first character the count equals the set-intersection cardinality. -/
theorem pair_count_amended_witness :
    (1 ≤ (CharacterPair.mk ⟨"A", "uA"⟩ ⟨"B", "uB"⟩ 2).episodes)
    ∧ (mkPair ndA ndB).episodes = sharedEpisodeSetCard ndA ndB := by
  constructor
  · exact (pair_count_amended [dupA, dupB]).1 _ (by decide)
  · exact (pair_count_amended [ndA, ndB]).2.1 (ndA, ndB) (by decide) (by decide)

/-- Helper: a pair survives the inner check iff the two characters share at
least one episode reference. -/
theorem commonEpisodes_pos_iff (a b : CharacterLite) :
    0 < (commonEpisodes a b).length ↔ ∃ e, e ∈ a.episodes ∧ e ∈ b.episodes := by
  rw [commonEpisodes, List.length_pos_iff_exists_mem]
  constructor
  · rintro ⟨e, he⟩
    rw [List.mem_filter] at he
    exact ⟨e, he.1, by simpa using he.2⟩
  · rintro ⟨e, h1, h2⟩
    exact ⟨e, List.mem_filter.mpr ⟨h1, by simpa using h2⟩⟩

/-- Helper: membership in the ghost pair list, for any input list. -/
theorem mem_genPairsSrc (chars : List CharacterLite) (a b : CharacterLite) :
    (a, b) ∈ genPairsSrc chars ↔
      a ∈ chars ∧ b ∈ chars ∧ a.id < b.id ∧ ∃ e, e ∈ a.episodes ∧ e ∈ b.episodes := by
  simp only [genPairsSrc, List.mem_flatMap, List.mem_filterMap]
  constructor
  · rintro ⟨c1, hc1, c2, hc2, heq⟩
    split_ifs at heq with h1 h2
    · have hab : c1 = a ∧ c2 = b := by
        injection heq with h
        exact ⟨congrArg Prod.fst h, congrArg Prod.snd h⟩
      obtain ⟨rfl, rfl⟩ := hab
      exact ⟨hc1, hc2, h1, (commonEpisodes_pos_iff c1 c2).mp h2⟩
  · rintro ⟨ha, hb, hlt, hshared⟩
    refine ⟨a, ha, b, hb, ?_⟩
    have hpos : 0 < (commonEpisodes a b).length :=
      (commonEpisodes_pos_iff a b).mpr (by obtain ⟨e, h1, h2⟩ := hshared; exact ⟨e, h1, h2⟩)
    rw [if_pos hlt, if_pos hpos]

/-- Helper: every element emitted by the inner loop for `c1` has `c1` as its
first component. -/
theorem genPairsSrc_inner_fst (chars : List CharacterLite) (c1 : CharacterLite)
    (x : CharacterLite × CharacterLite)
    (hx : x ∈ chars.filterMap (fun c2 =>
      if c1.id < c2.id then
        if 0 < (commonEpisodes c1 c2).length then some (c1, c2) else none
      else none)) : x.1 = c1 := by
  simp only [List.mem_filterMap] at hx
  obtain ⟨c2, -, heq⟩ := hx
  split_ifs at heq
  · cases heq; rfl

/-- Helper: in a duplicate-free list every member occurs exactly once. -/
theorem count_eq_one_of_nodup_of_mem {α : Type} [BEq α] [LawfulBEq α] {l : List α}
    (hnd : l.Nodup) {a : α} (ha : a ∈ l) : l.count a = 1 := by
  induction l with
  | nil => cases ha
  | cons x xs ih =>
    rw [List.count_cons]
    rcases List.mem_cons.mp ha with rfl | hmem
    · have h0 : xs.count a = 0 := List.count_eq_zero.mpr (by
        intro hc; exact (List.nodup_cons.mp hnd).1 hc)
      simp [h0]
    · have hne : ¬(x == a) = true := by
        intro hx
        have hxa : x = a := eq_of_beq hx
        subst hxa
        exact (List.nodup_cons.mp hnd).1 hmem
      rw [ih (List.nodup_cons.mp hnd).2 hmem]
      simp [hne]

/-- C4: on an input list with pairwise-distinct ids, the pair computation
emits exactly one pair for every unordered pair of distinct characters that
share at least one episode reference, oriented with the numerically smaller id
as `character1`; no self-pair and no zero-shared pair is ever emitted (the
membership characterization forces `a.id < b.id` and a shared episode), and
the emitted records are the projections of these source pairs. -/
theorem pair_generation_canonical (chars : List CharacterLite)
    (h : (chars.map CharacterLite.id).Nodup) :
    (∀ a b : CharacterLite, (a, b) ∈ genPairsSrc chars ↔
      a ∈ chars ∧ b ∈ chars ∧ a.id < b.id ∧ ∃ e, e ∈ a.episodes ∧ e ∈ b.episodes)
    ∧ (genPairsSrc chars).Nodup
    ∧ (∀ q ∈ genPairsSrc chars, (genPairsSrc chars).count q = 1)
    ∧ charactersPairs chars = (genPairsSrc chars).map (fun q => mkPair q.1 q.2) := by
  have hchars : chars.Nodup := h.of_map
  have hnd : (genPairsSrc chars).Nodup := by
    rw [genPairsSrc, List.nodup_flatMap]
    constructor
    · intro c1 _
      refine List.Nodup.filterMap ?_ hchars
      intro a a' b hb hb'
      have ha : b.2 = a := by
        simp only [Option.mem_def] at hb
        split_ifs at hb
        cases hb; rfl
      have ha' : b.2 = a' := by
        simp only [Option.mem_def] at hb'
        split_ifs at hb'
        cases hb'; rfl
      rw [← ha, ha']
    · refine hchars.imp ?_
      intro c1 c1' hne
      intro x hx hx'
      have h1 := genPairsSrc_inner_fst chars c1 x hx
      have h2 := genPairsSrc_inner_fst chars c1' x hx'
      exact hne (h1 ▸ h2)
  refine ⟨mem_genPairsSrc chars, hnd, ?_, charactersPairs_eq_map_genPairsSrc chars⟩
  intro q hq
  exact count_eq_one_of_nodup_of_mem hnd hq

/-- Witness for `pair_generation_canonical`: applied to the two-character list
`[ndA, ndB]`, whose ids 1 and 2 are distinct. -/
theorem pair_generation_canonical_witness :
    (ndA, ndB) ∈ genPairsSrc [ndA, ndB] ∧ (genPairsSrc [ndA, ndB]).Nodup := by
  have h := pair_generation_canonical [ndA, ndB] (by decide)
  refine ⟨(h.1 ndA ndB).mpr ⟨by decide, by decide, by decide, "e2", by decide, by decide⟩, h.2.1⟩

/-- Acceptance predicate for `min`/`max`: the `parseInt` prefix parse yields a
value (not `NaN`) and it is non-negative. -/
def acceptNonNeg (s : String) : Bool :=
  match parseIntJS s with
  | some v => decide (0 ≤ v)
  | none => false

/-- Acceptance predicate for `limit`: the prefix parse yields a positive value. -/
def acceptPos (s : String) : Bool :=
  match parseIntJS s with
  | some v => decide (0 < v)
  | none => false

/-- Whether the `min` parameter (absent or supplied) passes validation. -/
def minOkB : Option String → Bool
  | none => true
  | some s => acceptNonNeg s

/-- Whether the `max` parameter passes validation. -/
def maxOkB : Option String → Bool
  | none => true
  | some s => acceptNonNeg s

/-- Whether the `limit` parameter passes validation. -/
def limOkB : Option String → Bool
  | none => true
  | some s => acceptPos s

/-- Whether some `/top-pairs` query parameter fails validation. -/
def validationFails (ms xs ls : Option String) : Bool :=
  !(minOkB ms && maxOkB xs && limOkB ls)

/-- Helper: a rejected `min` value produces exactly the `min` error. -/
theorem validateMin_error_of (s : String) (h : acceptNonNeg s = false) :
    validateMin (some s) = .error minErrMsg := by
  unfold acceptNonNeg at h
  cases hp : parseIntJS s with
  | none => simp [validateMin, hp]
  | some v =>
    rw [hp] at h
    have hv : v < 0 := by simp at h; omega
    simp [validateMin, hp, hv]

/-- Helper: an accepted (or absent) `min` validates to some value. -/
theorem validateMin_ok_of (ms : Option String) (h : minOkB ms = true) :
    ∃ v, validateMin ms = .ok v := by
  cases ms with
  | none => exact ⟨0, rfl⟩
  | some s =>
    simp only [minOkB, acceptNonNeg] at h
    cases hp : parseIntJS s with
    | none => rw [hp] at h; cases h
    | some v =>
      rw [hp] at h
      have hv : ¬ v < 0 := by simp at h; omega
      exact ⟨v, by simp [validateMin, hp, hv]⟩

/-- Helper: a rejected `max` value produces exactly the `max` error. -/
theorem validateMax_error_of (s : String) (h : acceptNonNeg s = false) :
    validateMax (some s) = .error maxErrMsg := by
  unfold acceptNonNeg at h
  cases hp : parseIntJS s with
  | none => simp [validateMax, hp]
  | some v =>
    rw [hp] at h
    have hv : v < 0 := by simp at h; omega
    simp [validateMax, hp, hv]

/-- Helper: an accepted (or absent) `max` validates to some bound. -/
theorem validateMax_ok_of (xs : Option String) (h : maxOkB xs = true) :
    ∃ v, validateMax xs = .ok v := by
  cases xs with
  | none => exact ⟨none, rfl⟩
  | some s =>
    simp only [maxOkB, acceptNonNeg] at h
    cases hp : parseIntJS s with
    | none => rw [hp] at h; cases h
    | some v =>
      rw [hp] at h
      have hv : ¬ v < 0 := by simp at h; omega
      exact ⟨some v, by simp [validateMax, hp, hv]⟩

/-- Helper: a rejected `limit` value produces exactly the `limit` error. -/
theorem validateLimit_error_of (s : String) (h : acceptPos s = false) :
    validateLimit (some s) = .error limitErrMsg := by
  unfold acceptPos at h
  cases hp : parseIntJS s with
  | none => simp [validateLimit, hp]
  | some v =>
    rw [hp] at h
    have hv : v ≤ 0 := by simp at h; omega
    simp [validateLimit, hp, hv]

/-- Helper: an accepted (or absent) `limit` validates to some value. -/
theorem validateLimit_ok_of (ls : Option String) (h : limOkB ls = true) :
    ∃ v, validateLimit ls = .ok v := by
  cases ls with
  | none => exact ⟨20, rfl⟩
  | some s =>
    simp only [limOkB, acceptPos] at h
    cases hp : parseIntJS s with
    | none => rw [hp] at h; cases h
    | some v =>
      rw [hp] at h
      have hv : ¬ v ≤ 0 := by simp at h; omega
      exact ⟨v, by simp [validateLimit, hp, hv]⟩

/-- C5 counterexample: the partially numeric value `min=3abc` is NOT rejected:
`Number.parseInt("3abc", 10)` is `3`, which is finite and non-negative, so the
request proceeds (here against a 404 upstream, answering 200 with an empty
list) instead of answering 400 as the claim requires for partially numeric
values. -/
theorem topPairs_accepts_partial_numeric :
    topPairsHandler (some "3abc") none none notFoundUpstream = .ok []
    ∧ parseIntJS "3abc" = some 3 := by
  refine ⟨by decide, by decide⟩

/-- C5 amended: a supplied `min`/`max`/`limit` is accepted iff its
`Number.parseInt` prefix parse (leading whitespace, optional sign, longest
digit run; `NaN` when no digits) yields an integer that is non-negative
(`min`, `max`) resp. positive (`limit`) - trailing non-numeric characters are
ignored rather than rejected.  Each rejected parameter answers 400 with its
parameter-specific message; rejection is decided before any upstream call, so
the response then does not depend on the upstream at all; when every supplied
parameter is accepted the handler reaches the 200 branch. -/
theorem topPairs_validation_amended (ms xs ls : Option String)
    (u u' : String → FetchOutcome Character) :
    (∀ s, ms = some s → acceptNonNeg s = false →
      topPairsHandler ms xs ls u = .badRequest minErrMsg)
    ∧ (∀ s, xs = some s → acceptNonNeg s = false → minOkB ms = true →
      topPairsHandler ms xs ls u = .badRequest maxErrMsg)
    ∧ (∀ s, ls = some s → acceptPos s = false → minOkB ms = true → maxOkB xs = true →
      topPairsHandler ms xs ls u = .badRequest limitErrMsg)
    ∧ (validationFails ms xs ls = true →
      topPairsHandler ms xs ls u = topPairsHandler ms xs ls u')
    ∧ (validationFails ms xs ls = false → ∃ r, topPairsHandler ms xs ls u = .ok r) := by
  refine ⟨?_, ?_, ?_, ?_, ?_⟩
  · rintro s rfl h
    simp only [topPairsHandler, validateMin_error_of s h]
  · rintro s rfl h hmin
    obtain ⟨v, hv⟩ := validateMin_ok_of ms hmin
    simp only [topPairsHandler, hv, validateMax_error_of s h]
  · rintro s rfl h hmin hmax
    obtain ⟨v, hv⟩ := validateMin_ok_of ms hmin
    obtain ⟨w, hw⟩ := validateMax_ok_of xs hmax
    simp only [topPairsHandler, hv, hw, validateLimit_error_of s h]
  · intro hfail
    by_cases h1 : minOkB ms = true
    · obtain ⟨v, hv⟩ := validateMin_ok_of ms h1
      by_cases h2 : maxOkB xs = true
      · obtain ⟨w, hw⟩ := validateMax_ok_of xs h2
        by_cases h3 : limOkB ls = true
        · exfalso
          simp [validationFails, h1, h2, h3] at hfail
        · obtain ⟨s, rfl, hs⟩ : ∃ s, ls = some s ∧ acceptPos s = false := by
            cases ls with
            | none => exact absurd rfl h3
            | some s => exact ⟨s, rfl, by simpa [limOkB] using h3⟩
          simp only [topPairsHandler, hv, hw, validateLimit_error_of s hs]
      · obtain ⟨s, rfl, hs⟩ : ∃ s, xs = some s ∧ acceptNonNeg s = false := by
          cases xs with
          | none => exact absurd rfl h2
          | some s => exact ⟨s, rfl, by simpa [maxOkB] using h2⟩
        simp only [topPairsHandler, hv, validateMax_error_of s hs]
    · obtain ⟨s, rfl, hs⟩ : ∃ s, ms = some s ∧ acceptNonNeg s = false := by
        cases ms with
        | none => exact absurd rfl h1
        | some s => exact ⟨s, rfl, by simpa [minOkB] using h1⟩
      simp only [topPairsHandler, validateMin_error_of s hs]
  · intro hok
    have h3 : minOkB ms = true ∧ maxOkB xs = true ∧ limOkB ls = true := by
      simpa [validationFails, and_assoc] using hok
    obtain ⟨v, hv⟩ := validateMin_ok_of ms h3.1
    obtain ⟨w, hw⟩ := validateMax_ok_of xs h3.2.1
    obtain ⟨t, ht⟩ := validateLimit_ok_of ls h3.2.2
    refine ⟨List.take t.toNat (List.filter (fun pair => inRange v w pair.episodes)
      (sortPairs (charactersPairs (charactersWithEpisodes (getAllCharacters u))))), ?_⟩
    simp only [topPairsHandler, hv, hw, ht]

/-- Witness for `topPairs_validation_amended`: `min=-7` is rejected with the
`min` message; validation passing at defaults yields a 200 response. -/
theorem topPairs_validation_amended_witness :
    topPairsHandler (some "-7") none none notFoundUpstream = .badRequest minErrMsg
    ∧ ∃ r, topPairsHandler none none none notFoundUpstream = .ok r := by
  constructor
  · exact (topPairs_validation_amended (some "-7") none none notFoundUpstream
      notFoundUpstream).1 "-7" rfl (by decide)
  · exact (topPairs_validation_amended none none none notFoundUpstream
      notFoundUpstream).2.2.2.2 (by decide)

/-- The sort-filter-truncate pipeline of src/index.ts lines 240-242, as one
function of the loaded characters and the validated parameters. -/
def topPairsResultList (u : String → FetchOutcome Character)
    (minE : Int) (maxE : Option Int) (lim : Int) : List CharacterPair :=
  ((sortPairs (charactersPairs (charactersWithEpisodes (getAllCharacters u)))).filter
    (fun pair => inRange minE maxE pair.episodes)).take lim.toNat

/-- Helper: a 200 response of `/top-pairs` is exactly the pipeline output for
the validated parameters. -/
theorem topPairsHandler_ok_inv (ms xs ls : Option String)
    (u : String → FetchOutcome Character) (r : List CharacterPair)
    (h : topPairsHandler ms xs ls u = .ok r) :
    ∃ minE maxE lim, validateMin ms = .ok minE ∧ validateMax xs = .ok maxE ∧
      validateLimit ls = .ok lim ∧ r = topPairsResultList u minE maxE lim := by
  cases hm : validateMin ms with
  | error m => simp [topPairsHandler, hm] at h
  | ok v =>
    cases hx : validateMax xs with
    | error m => simp [topPairsHandler, hm, hx] at h
    | ok w =>
      cases hl : validateLimit ls with
      | error m => simp [topPairsHandler, hm, hx, hl] at h
      | ok t =>
        simp only [topPairsHandler, hm, hx, hl] at h
        injection h with h'
        exact ⟨v, w, t, rfl, rfl, rfl, h'.symm⟩

/-- Helper: the range predicate in propositional form. -/
theorem inRange_true_iff (minE : Int) (maxE : Option Int) (e : Nat) :
    inRange minE maxE e = true ↔
      (minE ≤ (e : Int) ∧ ∀ m, maxE = some m → (e : Int) ≤ m) := by
  unfold inRange
  cases maxE with
  | none => simp
  | some m => simp

/-- C6: every 200 response of `/top-pairs` is sorted in non-increasing order
of the shared-episode count (pairwise, hence in particular for any two
consecutive pairs). -/
theorem topPairs_output_sorted (ms xs ls : Option String)
    (u : String → FetchOutcome Character) (r : List CharacterPair)
    (h : topPairsHandler ms xs ls u = .ok r) :
    r.Pairwise (fun a b => b.episodes ≤ a.episodes) := by
  obtain ⟨v, w, t, -, -, -, rfl⟩ := topPairsHandler_ok_inv ms xs ls u r h
  have hs : (sortPairs (charactersPairs (charactersWithEpisodes (getAllCharacters u)))).Pairwise pairGE :=
    List.sorted_insertionSort pairGE _
  exact List.Pairwise.sublist (List.take_sublist _ _) (List.Pairwise.filter _ hs)

/-- Scenario-D characters: A and B share episode "e2", C shares nothing. -/
def charA : Character :=
  { id := 1, name := "A", type := "", url := "uA", episode := ["e1", "e2"] }

def charB : Character :=
  { id := 2, name := "B", type := "", url := "uB", episode := ["e2", "e3"] }

def charC : Character :=
  { id := 3, name := "C", type := "", url := "uC", episode := ["e4"] }

/-- A one-page upstream delivering the Scenario-D characters. -/
def demoUpstream : String → FetchOutcome Character := fun url =>
  if url = characterPageUrl then
    .response 200 (.ok
      { info := { count := 3, pages := 1, next := none, prev := none }
      , results := some [charA, charB, charC] })
  else .response 404 (.error "not found")

/-- Witness for `topPairs_output_sorted` on the Scenario-D upstream, whose
only pair is (A, B) with one shared episode. -/
theorem topPairs_output_sorted_witness :
    List.Pairwise (fun a b => b.episodes ≤ a.episodes)
      [CharacterPair.mk ⟨"A", "uA"⟩ ⟨"B", "uB"⟩ 1] :=
  topPairs_output_sorted none none none demoUpstream
    [CharacterPair.mk ⟨"A", "uA"⟩ ⟨"B", "uB"⟩ 1] (by decide)

/-- C7: with validated parameters `minE`, `maxE`, `lim`, the `/top-pairs`
response is exactly the ranked pairs filtered to counts in `[minE, maxE]`
(with `maxE = none` the default `Infinity`) and truncated to the first `lim`;
absent parameters default to `min = 0`, `max = Infinity`, `limit = 20`; every
returned pair's count lies in the range, and `min = max = 5` forces every
returned count to be exactly 5. -/
theorem topPairs_filter_defaults (ms xs ls : Option String)
    (u : String → FetchOutcome Character) (minE : Int) (maxE : Option Int) (lim : Int)
    (hm : validateMin ms = .ok minE) (hx : validateMax xs = .ok maxE)
    (hl : validateLimit ls = .ok lim) :
    topPairsHandler ms xs ls u = .ok (topPairsResultList u minE maxE lim)
    ∧ (ms = none → minE = 0) ∧ (xs = none → maxE = none) ∧ (ls = none → lim = 20)
    ∧ (∀ p ∈ topPairsResultList u minE maxE lim,
        minE ≤ (p.episodes : Int) ∧ ∀ m, maxE = some m → (p.episodes : Int) ≤ m)
    ∧ (minE = 5 → maxE = some 5 →
        ∀ p ∈ topPairsResultList u minE maxE lim, p.episodes = 5) := by
  have hmem : ∀ p ∈ topPairsResultList u minE maxE lim,
      minE ≤ (p.episodes : Int) ∧ ∀ m, maxE = some m → (p.episodes : Int) ≤ m := by
    intro p hp
    have hp' := List.mem_of_mem_take hp
    exact (inRange_true_iff minE maxE p.episodes).mp (List.mem_filter.mp hp').2
  refine ⟨?_, ?_, ?_, ?_, hmem, ?_⟩
  · simp only [topPairsHandler, hm, hx, hl]
    rfl
  · rintro rfl
    injection hm with h'
    exact h'.symm
  · rintro rfl
    injection hx with h'
    exact h'.symm
  · rintro rfl
    injection hl with h'
    exact h'.symm
  · rintro rfl rfl
    intro p hp
    obtain ⟨h1, h2⟩ := hmem p hp
    have h3 := h2 5 rfl
    omega

/-- Witness for `topPairs_filter_defaults`: `min=1`, `max=1` on the Scenario-D
upstream, with the `limit` default in force. -/
theorem topPairs_filter_defaults_witness :
    topPairsHandler (some "1") (some "1") none demoUpstream =
      .ok (topPairsResultList demoUpstream 1 (some 1) 20) :=
  (topPairs_filter_defaults (some "1") (some "1") none demoUpstream 1 (some 1) 20
    (by decide) (by decide) (by decide)).1

/-- Whether a fetch outcome is a failure in the sense of §7: a 404, a
transport error, any other non-success status, or a malformed body. -/
def fetchFailed {α : Type} : FetchOutcome α → Bool
  | .transportError _ => true
  | .response status body =>
    decide (status = 404) || !statusOk status ||
      (match body with | .error _ => true | .ok _ => false)

/-- A successful upstream response carrying an empty result list. -/
def emptyOkOutcome {α : Type} : FetchOutcome α :=
  .response 200 (.ok
    { info := { count := 0, pages := 0, next := none, prev := none }
    , results := some [] })

/-- Helper: an empty-success fetch yields the empty list. -/
theorem searchResource_emptyOk {α : Type} :
    searchResource (emptyOkOutcome : FetchOutcome α) = [] := rfl

/-- Helper: `searchResource` reduces every failure to the empty list. -/
theorem searchResource_eq_nil_of_failed {α : Type} (o : FetchOutcome α)
    (h : fetchFailed o = true) : searchResource o = [] := by
  cases o with
  | transportError m => rfl
  | response status body =>
    unfold searchResource
    by_cases h404 : status = 404
    · simp [h404]
    · by_cases hok : statusOk status = true
      · have hb : ∃ m, body = .error m := by
          cases body with
          | error m => exact ⟨m, rfl⟩
          | ok d => simp [fetchFailed, h404, hok] at h
        obtain ⟨m, rfl⟩ := hb
        simp [h404, hok]
      · simp [h404, Bool.eq_false_iff.mpr hok]

/-- The tagging-and-merging of the three hit lists in the fixed order
character, location, episode (src/index.ts lines 127-151). -/
def taggedResults (cs : List Character) (ls : List Location) (es : List Episode) :
    List SearchResult :=
  cs.map (fun c => SearchResult.mk c.name "character" c.url)
  ++ ls.map (fun l => SearchResult.mk l.name "location" l.url)
  ++ es.map (fun e => SearchResult.mk e.name "episode" e.url)

/-- C8: on a valid `/search` request, a failed fetch of one collection (404,
transport error, non-success status, malformed body) is reduced to an empty
hit list for that collection only: the response is identical to the one with
that collection successfully empty, and the request still answers 200 - no
failure signal reaches the caller. -/
theorem search_failure_isolated (t : String) (ht : ¬ t = "") (lr : Option String)
    (lim : Option Int) (hl : validateSearchLimit lr = .ok lim)
    (c : FetchOutcome Character) (lo : FetchOutcome Location) (e : FetchOutcome Episode) :
    (fetchFailed c = true → searchResource c = ([] : List Character) ∧
      searchHandler (some t) lr c lo e = searchHandler (some t) lr emptyOkOutcome lo e)
    ∧ (fetchFailed lo = true → searchResource lo = ([] : List Location) ∧
      searchHandler (some t) lr c lo e = searchHandler (some t) lr c emptyOkOutcome e)
    ∧ (fetchFailed e = true → searchResource e = ([] : List Episode) ∧
      searchHandler (some t) lr c lo e = searchHandler (some t) lr c lo emptyOkOutcome)
    ∧ ∃ rs, searchHandler (some t) lr c lo e = .ok rs := by
  refine ⟨?_, ?_, ?_, ?_⟩
  · intro hf
    have h0 := searchResource_eq_nil_of_failed c hf
    exact ⟨h0, by simp only [searchHandler, if_neg ht, hl, h0, searchResource_emptyOk]⟩
  · intro hf
    have h0 := searchResource_eq_nil_of_failed lo hf
    exact ⟨h0, by simp only [searchHandler, if_neg ht, hl, h0, searchResource_emptyOk]⟩
  · intro hf
    have h0 := searchResource_eq_nil_of_failed e hf
    exact ⟨h0, by simp only [searchHandler, if_neg ht, hl, h0, searchResource_emptyOk]⟩
  · cases lim with
    | none =>
      exact ⟨taggedResults (searchResource c) (searchResource lo) (searchResource e),
        by simp only [searchHandler, if_neg ht, hl]; rfl⟩
    | some n =>
      exact ⟨(taggedResults (searchResource c) (searchResource lo) (searchResource e)).take n.toNat,
        by simp only [searchHandler, if_neg ht, hl]; rfl⟩

/-- A 404 character-search outcome. -/
def char404 : FetchOutcome Character := .response 404 (.error "not found")

/-- A successful location-search outcome with one hit. -/
def okLocOutcome : FetchOutcome Location :=
  .response 200 (.ok
    { info := { count := 1, pages := 1, next := none, prev := none }
    , results := some [{ id := 1, name := "Earth", type := "Planet", url := "lu1" }] })

/-- A successful episode-search outcome with no hits. -/
def okEpOutcome : FetchOutcome Episode :=
  .response 200 (.ok
    { info := { count := 0, pages := 0, next := none, prev := none }
    , results := some [] })

/-- Witness for `search_failure_isolated`: a 404 on the character collection
leaves the response identical to an empty character result (spec Scenario E). -/
theorem search_failure_isolated_witness :
    searchResource char404 = ([] : List Character)
    ∧ searchHandler (some "Rick") none char404 okLocOutcome okEpOutcome =
        searchHandler (some "Rick") none emptyOkOutcome okLocOutcome okEpOutcome :=
  (search_failure_isolated "Rick" (by decide) none none rfl
    char404 okLocOutcome okEpOutcome).1 (by decide)

/-- C9: on a valid `/search` request, the response body is the concatenation
of the per-collection hit lists in the fixed order character, location,
episode, each hit tagged with its origin type; with a supplied limit the
concatenation is truncated to at most `limit` items, without one it is
returned whole. -/
theorem search_merge_order (t : String) (ht : ¬ t = "") (lr : Option String)
    (lim : Option Int) (hl : validateSearchLimit lr = .ok lim)
    (c : FetchOutcome Character) (lo : FetchOutcome Location) (e : FetchOutcome Episode) :
    (lim = none → searchHandler (some t) lr c lo e =
      .ok (taggedResults (searchResource c) (searchResource lo) (searchResource e)))
    ∧ (∀ n, lim = some n → searchHandler (some t) lr c lo e =
      .ok ((taggedResults (searchResource c) (searchResource lo) (searchResource e)).take n.toNat))
    ∧ (∀ n, lim = some n →
      ((taggedResults (searchResource c) (searchResource lo) (searchResource e)).take n.toNat).length
        ≤ n.toNat)
    ∧ (∀ x ∈ taggedResults (searchResource c) (searchResource lo) (searchResource e),
      x.type = "character" ∨ x.type = "location" ∨ x.type = "episode") := by
  refine ⟨?_, ?_, ?_, ?_⟩
  · rintro rfl
    simp only [searchHandler, if_neg ht, hl]
    rfl
  · rintro n rfl
    simp only [searchHandler, if_neg ht, hl]
    rfl
  · rintro n rfl
    exact List.length_take_le _ _
  · intro x hx
    simp only [taggedResults, List.mem_append, List.mem_map] at hx
    rcases hx with (⟨c', -, rfl⟩ | ⟨l', -, rfl⟩) | ⟨e', -, rfl⟩
    · exact Or.inl rfl
    · exact Or.inr (Or.inl rfl)
    · exact Or.inr (Or.inr rfl)

/-- Witness for `search_merge_order`: the Scenario-E inputs with no limit. -/
theorem search_merge_order_witness :
    searchHandler (some "Rick") none char404 okLocOutcome okEpOutcome =
      .ok (taggedResults (searchResource char404) (searchResource okLocOutcome)
        (searchResource okEpOutcome)) :=
  (search_merge_order "Rick" (by decide) none none rfl
    char404 okLocOutcome okEpOutcome).1 rfl

def charU1 : Character := { id := 1, name := "A", type := "", url := "uA", episode := ["e1"] }

def charU2 : Character := { id := 2, name := "B", type := "", url := "uB", episode := ["e1"] }

def charU3 : Character := { id := 3, name := "C", type := "", url := "uC", episode := ["e1"] }

/-- An upstream delivering the characters out of id order: C, A, B. -/
def unsortedUpstream : String → FetchOutcome Character := fun url =>
  if url = characterPageUrl then
    .response 200 (.ok
      { info := { count := 3, pages := 1, next := none, prev := none }
      , results := some [charU3, charU1, charU2] })
  else .response 404 (.error "not found")

/-- C10 counterexample: with the input list [C, A, B] (ids 3, 1, 2), all three
pairs tie at one shared episode, and the output preserves the generation order
(A,C), (A,B), (B,C) - the nested-loop order over the INPUT LIST - not the
claimed canonical order ascending by (character1.id, character2.id), which
would be (A,B), (A,C), (B,C). -/
theorem topPairs_tie_order_counterexample :
    topPairsHandler none none none unsortedUpstream =
      .ok [ CharacterPair.mk ⟨"A", "uA"⟩ ⟨"C", "uC"⟩ 1
          , CharacterPair.mk ⟨"A", "uA"⟩ ⟨"B", "uB"⟩ 1
          , CharacterPair.mk ⟨"B", "uB"⟩ ⟨"C", "uC"⟩ 1 ]
    ∧ topPairsHandler none none none unsortedUpstream ≠
      .ok [ CharacterPair.mk ⟨"A", "uA"⟩ ⟨"B", "uB"⟩ 1
          , CharacterPair.mk ⟨"A", "uA"⟩ ⟨"C", "uC"⟩ 1
          , CharacterPair.mk ⟨"B", "uB"⟩ ⟨"C", "uC"⟩ 1 ] := by
  refine ⟨by decide, by decide⟩

/-- Helper: filtering the pairs with a fixed count out of an ordered insert
keeps them in order, with the inserted pair first when it has that count
(every element passed over has a strictly larger count). -/
theorem filter_key_orderedInsert (a : CharacterPair) (l : List CharacterPair) (k : Nat) :
    (List.orderedInsert pairGE a l).filter (fun p => p.episodes == k) =
      if a.episodes == k then a :: l.filter (fun p => p.episodes == k)
      else l.filter (fun p => p.episodes == k) := by
  induction l with
  | nil =>
    rw [List.orderedInsert, List.filter_cons]
  | cons b l ih =>
    rw [List.orderedInsert]
    by_cases hab : pairGE a b
    · rw [if_pos hab]
      exact List.filter_cons
    · rw [if_neg hab]
      rw [List.filter_cons, ih]
      have hgt : a.episodes < b.episodes := by
        unfold pairGE at hab
        omega
      by_cases hak : (a.episodes == k) = true
      · have hk : a.episodes = k := by simpa using hak
        have hbk : (b.episodes == k) = false := by
          simp
          omega
        simp [hak, hbk, List.filter_cons]
      · have hak' : (a.episodes == k) = false := by
          simp only [Bool.not_eq_true] at hak
          exact hak
        simp [hak', List.filter_cons]

/-- Helper: the stable sort preserves, among pairs of one fixed count, the
original order (the defining property of a stable sort by the count key). -/
theorem filter_key_sortPairs (l : List CharacterPair) (k : Nat) :
    (sortPairs l).filter (fun p => p.episodes == k) = l.filter (fun p => p.episodes == k) := by
  unfold sortPairs
  induction l with
  | nil => rfl
  | cons a l ih =>
    rw [List.insertionSort, filter_key_orderedInsert, ih]
    by_cases h : (a.episodes == k) = true
    · simp [h, List.filter_cons]
    · have h' : (a.episodes == k) = false := by
        simp only [Bool.not_eq_true] at h
        exact h
      simp [h', List.filter_cons]

/-- C10 amended: among pairs with an equal episodes count, the `/top-pairs`
output preserves the pair-generation order, which is the nested-loop order
over the INPUT LIST (outer position, then inner position), because the sort
is stable; this coincides with ascending (character1.id, character2.id)
exactly when the input character list is sorted by strictly ascending id, as
the upstream delivers it - not for arbitrary input lists.  The computation is
a pure function of the input list, so repeated runs on the same input yield
the identical ordered output (determinism holds by construction in this
model: the stable sort under a total comparator has a unique output). -/
theorem topPairs_tie_order_amended (chars : List CharacterLite) :
    (∀ k : Nat, (sortPairs (charactersPairs chars)).filter (fun p => p.episodes == k) =
      (charactersPairs chars).filter (fun p => p.episodes == k))
    ∧ ((chars.map CharacterLite.id).Sorted (· < ·) →
      (genPairsSrc chars).Pairwise (fun p q =>
        p.1.id < q.1.id ∨ (p.1.id = q.1.id ∧ p.2.id < q.2.id))) := by
  constructor
  · intro k
    exact filter_key_sortPairs (charactersPairs chars) k
  · intro hsort
    have hp : chars.Pairwise (fun x y => x.id < y.id) := List.pairwise_map.mp hsort
    rw [genPairsSrc, List.pairwise_flatMap]
    constructor
    · intro c1 _
      rw [List.pairwise_filterMap]
      refine hp.imp ?_
      intro c2 c2' h12 b hb b' hb'
      have hb2 : b = (c1, c2) := by
        simp only [Option.mem_def] at hb
        split_ifs at hb
        cases hb; rfl
      have hb2' : b' = (c1, c2') := by
        simp only [Option.mem_def] at hb'
        split_ifs at hb'
        cases hb'; rfl
      subst hb2; subst hb2'
      exact Or.inr ⟨rfl, h12⟩
    · refine hp.imp ?_
      intro c1 c1' h11 x hx y hy
      have hx1 := genPairsSrc_inner_fst chars c1 x hx
      have hy1 := genPairsSrc_inner_fst chars c1' y hy
      rw [hx1, hy1]
      exact Or.inl h11

/-- Witness for `topPairs_tie_order_amended` on the id-sorted three-character
list with a three-way tie. -/
theorem topPairs_tie_order_amended_witness :
    ((sortPairs (charactersPairs (charactersWithEpisodes [charU1, charU2, charU3]))).filter
      (fun p => p.episodes == 1) =
      (charactersPairs (charactersWithEpisodes [charU1, charU2, charU3])).filter
        (fun p => p.episodes == 1))
    ∧ (genPairsSrc (charactersWithEpisodes [charU1, charU2, charU3])).Pairwise (fun p q =>
        p.1.id < q.1.id ∨ (p.1.id = q.1.id ∧ p.2.id < q.2.id)) :=
  ⟨(topPairs_tie_order_amended (charactersWithEpisodes [charU1, charU2, charU3])).1 1,
   (topPairs_tie_order_amended (charactersWithEpisodes [charU1, charU2, charU3])).2 (by decide)⟩
